import Mathlib

/-!
Shallow embedding of `Lymely/Resources/Map/script.py`.

The script loads a GeoJSON county-boundary collection and a Lyme-disease CSV,
normalizes the `GEOID` join key in both with Python's `str.zfill(5)`, performs
a pandas left merge on `GEOID`, reports joined rows with any missing (NaN)
cell split by the textual prefix `"72"`, and writes the full merged collection
to an output GeoJSON file.

Rows are modelled as association lists from column names to cells; a cell is
either a present opaque value or the pandas missing value NaN.  The `GEOID`
column of both tables is kept as a separate string field: in the script it is
coerced to `str` (boundary side via `astype(str)`, CSV side via
`dtype={'GEOID': str}`) before `zfill`, so it is never NaN in the merged
frame.
-/

/-- A cell of a tabular or geometry attribute column: a present value
(payload kept opaque as a string) or the pandas missing value NaN. -/
inductive Cell where
  | val : String → Cell
  | na : Cell
deriving DecidableEq, Repr

/-- Whether a cell is missing, as `pandas.isna` reports it. -/
def Cell.isna : Cell → Bool
  | .na => true
  | .val _ => false

/-- One feature of `counties.geojson`: the `GEOID` join key (as a string,
after `astype(str)`) together with all its other columns — `NAME`, the
geometry, and any further properties — as an association list. -/
structure GeoFeature where
  geoid : String
  props : List (String × Cell)
deriving DecidableEq, Repr

/-- One row of `lyme_disease_2022.csv`: the `GEOID` key (read with
`dtype={'GEOID': str}`) and the metric cells by column name. -/
structure CsvRow where
  geoid : String
  cells : List (String × Cell)
deriving DecidableEq, Repr

/-- The CSV table: its metric column names (the header minus `GEOID`),
used to pad unmatched rows with NaN, and its rows in file order. -/
structure CsvTable where
  cols : List String
  rows : List CsvRow
deriving DecidableEq, Repr

/-- Whether a character sequence begins with an ASCII sign character. -/
def signLed : List Char → Bool
  | c :: _ => c == '+' || c == '-'
  | [] => false

/-- Python `str.zfill` on a character sequence: left-fill with ASCII `'0'`
to the requested width; a leading `'+'`/`'-'` stays in front and the padding
is inserted after it.  The pad count `width - l.length` is truncated
subtraction, so input of at least the width is returned unchanged, exactly
as in CPython. -/
def zfillChars (width : Nat) (l : List Char) : List Char :=
  match l with
  | [] => List.replicate width '0'
  | c :: rest =>
      if c == '+' || c == '-' then
        c :: (List.replicate (width - l.length) '0' ++ rest)
      else
        List.replicate (width - l.length) '0' ++ (c :: rest)

/-- Python `str.zfill` on strings. -/
def zfill (width : Nat) (s : String) : String := ⟨zfillChars width s.data⟩

/-- Source line `counties['GEOID'] = counties['GEOID'].astype(str).str.zfill(5)`. -/
def normCounties (fs : List GeoFeature) : List GeoFeature :=
  fs.map fun f => { f with geoid := zfill 5 f.geoid }

/-- Source line `csv_data['GEOID'] = csv_data['GEOID'].str.zfill(5)`. -/
def normCsv (t : CsvTable) : CsvTable :=
  { t with rows := t.rows.map fun r => { r with geoid := zfill 5 r.geoid } }

/-- One row of the merged frame: the boundary feature (all left columns)
plus one cell per CSV metric column. -/
structure MergedRow where
  left : GeoFeature
  right : List (String × Cell)
deriving DecidableEq, Repr

/-- The CSV rows whose key equals the given `GEOID`, in table order —
the match set pandas uses for one left row of the merge. -/
def matchRows (t : CsvTable) (g : String) : List CsvRow :=
  t.rows.filter fun r => r.geoid == g

/-- The all-NaN right side a left merge gives an unmatched boundary row. -/
def naRow (cols : List String) : List (String × Cell) :=
  cols.map fun c => (c, Cell.na)

/-- The merged rows one boundary feature contributes: one row per matching
CSV row, or a single NaN-padded row when no CSV row matches. -/
def mergeBlock (f : GeoFeature) (t : CsvTable) : List MergedRow :=
  match matchRows t f.geoid with
  | [] => [⟨f, naRow t.cols⟩]
  | ms => ms.map fun m => ⟨f, m.cells⟩

/-- Source line `counties.merge(csv_data, on='GEOID', how='left')`: boundary rows in
their input order, each replaced by its block of merged rows. -/
def mergeLeft (fs : List GeoFeature) (t : CsvTable) : List MergedRow :=
  match fs with
  | [] => []
  | f :: rest => mergeBlock f t ++ mergeLeft rest t

/-- The whole data transformation of the script, from the two loaded inputs
to `merged_data`: normalize both keys, then left-merge. -/
def pipeline (fs : List GeoFeature) (t : CsvTable) : List MergedRow :=
  mergeLeft (normCounties fs) (normCsv t)

/-- Predicate `merged_data.isna().any(axis=1)` for one row: some cell of some column
is missing.  The `GEOID` column itself is a string on both sides and the
merged key always comes from the left frame, so it is never NaN. -/
def rowHasNA (m : MergedRow) : Bool :=
  m.left.props.any (fun p => p.2.isna) || m.right.any (fun p => p.2.isna)

/-- Source line `missing_data = merged_data[merged_data.isna().any(axis=1)]`. -/
def missing_data (merged : List MergedRow) : List MergedRow :=
  merged.filter fun m => rowHasNA m

/-- Test `.str.startswith('72')` on a `GEOID` value. -/
def startsWith72 (g : String) : Bool :=
  List.isPrefixOf ['7', '2'] g.data

/-- Source line `missing_mainland = missing_data[~missing_data['GEOID'].str.startswith('72')]`. -/
def missing_mainland (merged : List MergedRow) : List MergedRow :=
  (missing_data merged).filter fun m => !(startsWith72 m.left.geoid)

/-- Source line `missing_non_mainland = missing_data[missing_data['GEOID'].str.startswith('72')]`. -/
def missing_non_mainland (merged : List MergedRow) : List MergedRow :=
  (missing_data merged).filter fun m => startsWith72 m.left.geoid

/-- The `NAME` column of a merged row, as the report's column projection
reads it (a boundary-side property). -/
def nameCol (m : MergedRow) : Cell :=
  ((m.left.props.find? fun p => p.1 == "NAME").map Prod.snd).getD Cell.na

/-- The two diagnostic tables the script prints: `GEOID` and `NAME` of the
mainland and of the non-mainland missing-data rows. -/
def reportLines (merged : List MergedRow) : List (List (String × Cell)) :=
  [(missing_mainland merged).map fun m => (m.left.geoid, nameCol m),
   (missing_non_mainland merged).map fun m => (m.left.geoid, nameCol m)]

/-- The error kinds of the run: missing input file, malformed input,
unwritable output path. -/
inductive Err where
  | fileNotFound : Err
  | parseError : Err
  | ioError : Err
deriving DecidableEq, Repr

/-- Observable state of one run: the merged frame held in memory, what has
been printed, and the contents of the output file if it was written. -/
structure ScriptState where
  merged : List MergedRow
  printed : List (List (String × Cell))
  outFile : Option (List MergedRow)
deriving DecidableEq, Repr

/-- The two `print` statements of the reporter: append the diagnostic
tables to stdout and touch nothing else. -/
def reportStep (s : ScriptState) : ScriptState :=
  { s with printed := s.printed ++ reportLines s.merged }

/-- Source line `merged_data.to_file(output_geojson_path, driver='GeoJSON')`: serialize
the full in-memory merged frame, or fail when the path is unwritable. -/
def writeStep (writable : Bool) (s : ScriptState) : Except Err ScriptState :=
  if writable then .ok { s with outFile := some s.merged } else .error .ioError

/-- The whole script run.  The two loads are passed as already-resolved
results (`gpd.read_file` / `pd.read_csv` raise uncaught on a missing or
malformed file); `writable` says whether the output path accepts the write.
No step catches an error, exactly as in the source, where no `try` exists. -/
def runScript (loadGeo : Except Err (List GeoFeature))
    (loadCsv : Except Err CsvTable) (writable : Bool) :
    Except Err ScriptState := do
  let counties ← loadGeo
  let csv ← loadCsv
  let merged := pipeline counties csv
  let s := reportStep { merged := merged, printed := [], outFile := none }
  writeStep writable s

/-- The output file a run leaves behind: a failed run leaves none. -/
def fileWritten : Except Err ScriptState → Option (List MergedRow)
  | .ok s => s.outFile
  | .error _ => none

/-- Each element of the list repeated, in place, a given number of times —
used to state how the merge's output order follows the left input order. -/
def repeatEach (k : GeoFeature → Nat) : List GeoFeature → List GeoFeature
  | [] => []
  | f :: rest => List.replicate (k f) f ++ repeatEach k rest

example : zfill 5 "6001" = "06001" := by decide
example : zfill 5 "72001" = "72001" := by decide
example : zfill 5 "123456" = "123456" := by decide
example : zfill 5 "-1" = "-0001" := by decide
example : zfill 5 "" = "00000" := by decide

lemma zfillChars_of_le {w : Nat} {l : List Char} (h : w ≤ l.length) :
    zfillChars w l = l := by
  cases l with
  | nil =>
      have : w = 0 := by simpa using h
      simp [zfillChars, this]
  | cons c rest =>
      have hz : w - (rest.length + 1) = 0 := by
        simp only [List.length_cons] at h
        omega
      cases hc : (c == '+' || c == '-') <;> simp [zfillChars, hc, hz]

lemma zfillChars_eq_pad {w : Nat} {l : List Char} (h : signLed l = false) :
    zfillChars w l = List.replicate (w - l.length) '0' ++ l := by
  cases l with
  | nil => simp [zfillChars]
  | cons c rest =>
      simp only [signLed, Bool.or_eq_false_iff] at h
      simp [zfillChars, h.1, h.2]

lemma zfillChars_length (w : Nat) (l : List Char) :
    (zfillChars w l).length = max w l.length := by
  cases l with
  | nil => simp [zfillChars]
  | cons c rest =>
      cases hc : (c == '+' || c == '-') <;>
        · simp [zfillChars, hc]
          omega

lemma zfill_short_not72 {l : List Char} (h : l.length < 5) :
    List.isPrefixOf ['7', '2'] (zfillChars 5 l) = false := by
  cases l with
  | nil => decide
  | cons c rest =>
      have hlen : 0 < 5 - (c :: rest).length := by
        simp only [List.length_cons] at h ⊢
        omega
      obtain ⟨k, hk⟩ : ∃ k, 5 - (c :: rest).length = k + 1 :=
        ⟨_, (Nat.succ_pred_eq_of_pos hlen).symm⟩
      cases hc : (c == '+' || c == '-') with
      | false =>
          simp only [zfillChars, hc, if_neg Bool.false_ne_true, hk,
            List.replicate_succ, List.cons_append]
          simp [List.isPrefixOf]
      | true =>
          simp only [zfillChars, hc, if_pos rfl]
          rcases Bool.or_eq_true_iff.mp hc with h1 | h1
          · have hcp : c = '+' := by simpa using h1
            subst hcp
            simp [List.isPrefixOf]
          · have hcm : c = '-' := by simpa using h1
            subst hcm
            simp [List.isPrefixOf]

lemma matchRows_mem {t : CsvTable} {g : String} {r : CsvRow}
    (h : r ∈ matchRows t g) : r ∈ t.rows ∧ r.geoid = g := by
  have := List.mem_filter.mp h
  exact ⟨this.1, by simpa using this.2⟩

lemma mem_matchRows {t : CsvTable} {g : String} {r : CsvRow}
    (hr : r ∈ t.rows) (hg : r.geoid = g) : r ∈ matchRows t g :=
  List.mem_filter.mpr ⟨hr, by simpa using hg⟩

lemma matchRows_eq_nil {t : CsvTable} {g : String}
    (h : ∀ r ∈ t.rows, r.geoid ≠ g) : matchRows t g = [] := by
  apply List.filter_eq_nil_iff.mpr
  intro r hr
  simpa using h r hr

lemma mem_mergeBlock {m : MergedRow} {f : GeoFeature} {t : CsvTable}
    (h : m ∈ mergeBlock f t) :
    m.left = f ∧ (m.right = naRow t.cols ∨
      ∃ r ∈ t.rows, r.geoid = f.geoid ∧ m.right = r.cells) := by
  unfold mergeBlock at h
  cases hm : matchRows t f.geoid with
  | nil =>
      rw [hm] at h
      simp only [List.mem_singleton] at h
      subst h
      exact ⟨rfl, Or.inl rfl⟩
  | cons r rs =>
      rw [hm] at h
      simp only [List.mem_map] at h
      obtain ⟨r', hr', hm'⟩ := h
      have hr'' : r' ∈ matchRows t f.geoid := hm ▸ hr'
      obtain ⟨hrow, hgeo⟩ := matchRows_mem hr''
      subst hm'
      exact ⟨rfl, Or.inr ⟨r', hrow, hgeo, rfl⟩⟩

lemma mergeBlock_of_no_match {f : GeoFeature} {t : CsvTable}
    (h : ∀ r ∈ t.rows, r.geoid ≠ f.geoid) :
    mergeBlock f t = [⟨f, naRow t.cols⟩] := by
  unfold mergeBlock
  rw [matchRows_eq_nil h]

lemma mergeBlock_map_left (f : GeoFeature) (t : CsvTable) :
    (mergeBlock f t).map MergedRow.left
      = List.replicate (max 1 (matchRows t f.geoid).length) f := by
  unfold mergeBlock
  cases hm : matchRows t f.geoid with
  | nil => rfl
  | cons r rs =>
      simp only [List.map_map]
      have : (MergedRow.left ∘ fun (m : CsvRow) => (⟨f, m.cells⟩ : MergedRow))
          = fun _ => f := rfl
      rw [this]
      have h1 : max 1 (r :: rs).length = (r :: rs).length := by
        simp
      rw [h1]
      exact List.map_const' (r :: rs) f

lemma mem_mergeLeft {m : MergedRow} {fs : List GeoFeature} {t : CsvTable}
    (h : m ∈ mergeLeft fs t) : m.left ∈ fs ∧ (m.right = naRow t.cols ∨
      ∃ r ∈ t.rows, r.geoid = m.left.geoid ∧ m.right = r.cells) := by
  induction fs with
  | nil => simp [mergeLeft] at h
  | cons f rest ih =>
      simp only [mergeLeft, List.mem_append] at h
      cases h with
      | inl h =>
          obtain ⟨hl, hr⟩ := mem_mergeBlock h
          exact ⟨by simp [hl], by rw [hl]; exact hr⟩
      | inr h =>
          obtain ⟨hl, hr⟩ := ih h
          exact ⟨List.mem_cons_of_mem _ hl, hr⟩

lemma mergeBlock_subset_mergeLeft {f : GeoFeature} {fs : List GeoFeature}
    {t : CsvTable} (hf : f ∈ fs) {m : MergedRow} (hm : m ∈ mergeBlock f t) :
    m ∈ mergeLeft fs t := by
  induction fs with
  | nil => simp at hf
  | cons g rest ih =>
      simp only [mergeLeft, List.mem_append]
      rcases List.mem_cons.mp hf with h | h
      · exact Or.inl (h ▸ hm)
      · exact Or.inr (ih h)

lemma mergeLeft_map_left (fs : List GeoFeature) (t : CsvTable) :
    (mergeLeft fs t).map MergedRow.left
      = repeatEach (fun f => max 1 (matchRows t f.geoid).length) fs := by
  induction fs with
  | nil => rfl
  | cons f rest ih =>
      simp only [mergeLeft, repeatEach, List.map_append, ih,
        mergeBlock_map_left]

lemma filter_geoid_length_le_one {rows : List CsvRow}
    (h : (rows.map CsvRow.geoid).Nodup) (g : String) :
    (rows.filter fun r => r.geoid == g).length ≤ 1 := by
  induction rows with
  | nil => simp
  | cons r rest ih =>
      simp only [List.map_cons, List.nodup_cons] at h
      by_cases hg : (r.geoid == g) = true
      · have hgeq : r.geoid = g := by simpa using hg
        have hnil : (rest.filter fun r' => r'.geoid == g) = [] := by
          apply List.filter_eq_nil_iff.mpr
          intro r' hr' hbeq
          have hg' : r'.geoid = g := by simpa using hbeq
          exact h.1 (List.mem_map.mpr ⟨r', hr', hg'.trans hgeq.symm⟩)
        simp [List.filter_cons, hg, hnil]
      · simp only [List.filter_cons, hg, Bool.false_eq_true, if_false]
        exact ih h.2

lemma repeatEach_eq_self {k : GeoFeature → Nat} {fs : List GeoFeature}
    (h : ∀ f ∈ fs, k f = 1) : repeatEach k fs = fs := by
  induction fs with
  | nil => rfl
  | cons f rest ih =>
      have h1 : k f = 1 := h f (List.mem_cons_self f rest)
      have h2 : repeatEach k rest = rest :=
        ih fun g hg => h g (List.mem_cons_of_mem f hg)
      simp [repeatEach, h1, h2]

lemma zfill_length (w : Nat) (s : String) :
    (zfill w s).length = max w s.length := by
  show (zfillChars w s.data).length = max w s.data.length
  exact zfillChars_length w s.data

lemma zfill_of_le {s : String} (h : 5 ≤ s.length) : zfill 5 s = s := by
  show (⟨zfillChars 5 s.data⟩ : String) = s
  rw [zfillChars_of_le (show 5 ≤ s.data.length from h)]

lemma normCounties_map_geoid (fs : List GeoFeature) :
    (normCounties fs).map GeoFeature.geoid = fs.map fun f => zfill 5 f.geoid := by
  rw [normCounties, List.map_map]
  rfl

lemma normCsv_map_geoid (t : CsvTable) :
    (normCsv t).rows.map CsvRow.geoid = t.rows.map fun r => zfill 5 r.geoid := by
  rw [normCsv, List.map_map]
  rfl

lemma length_filter_partition {α : Type} (p : α → Bool) (l : List α) :
    (l.filter fun a => !(p a)).length + (l.filter fun a => p a).length
      = l.length := by
  induction l with
  | nil => rfl
  | cons a rest ih =>
      cases hp : p a <;> simp [List.filter_cons, hp] <;> omega

/-- C3: normalization converts each identifier in both collections to its
string form and left-pads it with `'0'` to exactly 5 characters; an
identifier of 5 or more characters is left unchanged (no truncation).  The
padding equation is stated for identifiers without a leading ASCII sign,
since Python's `zfill` inserts the fill after a leading `'+'`/`'-'`; `GEOID`
identifiers are digit strings, which never carry one. -/
theorem geoid_normalization_zero_pads :
    (∀ s : String, signLed s.data = false →
      zfill 5 s = ⟨List.replicate (5 - s.length) '0' ++ s.data⟩) ∧
    (∀ s : String, s.length ≤ 5 → (zfill 5 s).length = 5) ∧
    (∀ s : String, 5 ≤ s.length → zfill 5 s = s) ∧
    (∀ fs : List GeoFeature,
      (normCounties fs).map GeoFeature.geoid = fs.map fun f => zfill 5 f.geoid) ∧
    (∀ t : CsvTable,
      (normCsv t).rows.map CsvRow.geoid = t.rows.map fun r => zfill 5 r.geoid) := by
  refine ⟨?_, ?_, ?_, normCounties_map_geoid, normCsv_map_geoid⟩
  · intro s h
    show (⟨zfillChars 5 s.data⟩ : String) = _
    rw [zfillChars_eq_pad h]
    exact rfl
  · intro s h
    rw [zfill_length]
    have : s.length ≤ 5 := h
    omega
  · intro s h
    exact zfill_of_le h

/-- Witness for C3 at concrete identifiers: `"72"` is padded to `"00072"`,
`"6001"` reaches width 5, and `"123456"` passes through unchanged. -/
theorem geoid_normalization_zero_pads_witness :
    (zfill 5 ("72") = ⟨List.replicate (5 - ("72").length) '0' ++ ("72").data⟩) ∧
    ((zfill 5 ("6001")).length = 5) ∧
    (zfill 5 ("123456") = ("123456")) ∧
    ((normCounties [⟨"6001", []⟩]).map GeoFeature.geoid
        = [(⟨"6001", []⟩ : GeoFeature)].map fun f => zfill 5 f.geoid) ∧
    ((normCsv ⟨[], [⟨"72", []⟩]⟩).rows.map CsvRow.geoid
        = (⟨[], [⟨"72", []⟩]⟩ : CsvTable).rows.map fun r => zfill 5 r.geoid) :=
  ⟨geoid_normalization_zero_pads.1 ("72") (by decide),
   geoid_normalization_zero_pads.2.1 ("6001") (by decide),
   geoid_normalization_zero_pads.2.2.1 ("123456") (by decide),
   geoid_normalization_zero_pads.2.2.2.1 [⟨"6001", []⟩],
   geoid_normalization_zero_pads.2.2.2.2 ⟨[], [⟨"72", []⟩]⟩⟩

/-- C1 fails as stated: pandas `merge(..., how='left')` repeats a boundary
row once per matching attribute row, so with a duplicated CSV key the output
has more rows than the boundary collection.  Here one boundary record and
two CSV rows with the same key give two output rows, not one. -/
theorem merge_row_count_counterexample :
    ¬ ((pipeline [⟨"00001", []⟩]
        ⟨["CASES"],
         [⟨"00001", [("CASES", Cell.val ("1"))]⟩,
          ⟨"00001", [("CASES", Cell.val ("2"))]⟩]⟩).length
      = [(⟨"00001", []⟩ : GeoFeature)].length) := by decide

/-- C1 (amended): when the attribute collection has no duplicate normalized
identifier, the merged output has exactly as many rows as the boundary
collection and the boundary records appear exactly once each, in order. -/
theorem merge_preserves_boundary_rows_of_unique_keys
    (fs : List GeoFeature) (t : CsvTable)
    (h : ((normCsv t).rows.map CsvRow.geoid).Nodup) :
    (pipeline fs t).map MergedRow.left = normCounties fs ∧
    (pipeline fs t).length = fs.length := by
  have hone : ∀ f ∈ normCounties fs,
      (fun g : GeoFeature => max 1 (matchRows (normCsv t) g.geoid).length) f
        = 1 := by
    intro f _
    have hle : (matchRows (normCsv t) f.geoid).length ≤ 1 :=
      filter_geoid_length_le_one h f.geoid
    simp only []
    omega
  have h1 : (pipeline fs t).map MergedRow.left = normCounties fs := by
    show (mergeLeft (normCounties fs) (normCsv t)).map MergedRow.left = _
    rw [mergeLeft_map_left, repeatEach_eq_self hone]
  refine ⟨h1, ?_⟩
  have h2 := congrArg List.length h1
  rw [List.length_map] at h2
  rw [h2, normCounties, List.length_map]

/-- Witness for the amended C1: one boundary row joined against a CSV with
one (unique) key keeps exactly one output row. -/
theorem merge_preserves_boundary_rows_of_unique_keys_witness :
    ((pipeline [⟨"6001", []⟩]
        ⟨["CASES"], [⟨"06001", [("CASES", Cell.val ("7"))]⟩]⟩).map MergedRow.left
      = normCounties [⟨"6001", []⟩]) ∧
    (pipeline [⟨"6001", []⟩]
        ⟨["CASES"], [⟨"06001", [("CASES", Cell.val ("7"))]⟩]⟩).length
      = [(⟨"6001", []⟩ : GeoFeature)].length :=
  merge_preserves_boundary_rows_of_unique_keys _ _ (by decide)

/-- C4 fails as stated: an identifier whose string form already has more
than 5 characters is not truncated, so the output identifier `"123456"`
has 6 characters, not 5. -/
theorem output_geoid_width_counterexample :
    ¬ (∀ m ∈ pipeline [⟨"123456", []⟩] ⟨[], []⟩,
        m.left.geoid.length = 5) := by decide

/-- C4 (amended): every identifier in the merged output is the zero-padded
form of some boundary identifier and has at least 5 characters; it has
exactly 5 whenever the original string form had at most 5 characters, while
longer originals pass through with their original width. -/
theorem output_geoid_normalized_width (fs : List GeoFeature) (t : CsvTable) :
    ∀ m ∈ pipeline fs t, 5 ≤ m.left.geoid.length ∧
      ∃ f ∈ fs, m.left.geoid = zfill 5 f.geoid ∧
        (f.geoid.length ≤ 5 → m.left.geoid.length = 5) := by
  intro m hm
  have hm' : m ∈ mergeLeft (normCounties fs) (normCsv t) := hm
  obtain ⟨hmem, -⟩ := mem_mergeLeft hm'
  obtain ⟨f, hf, hfe⟩ := List.mem_map.mp hmem
  have hg : m.left.geoid = zfill 5 f.geoid := by rw [← hfe]
  have hlen : m.left.geoid.length = max 5 f.geoid.length := by
    rw [hg, zfill_length]
  exact ⟨by omega, f, hf, hg, fun hle => by omega⟩

/-- Witness for the amended C4: the 4-character boundary identifier
`"6001"` leaves the pipeline as the 5-character `"06001"`. -/
theorem output_geoid_normalized_width_witness :
    5 ≤ ((⟨⟨"06001", []⟩, []⟩ : MergedRow)).left.geoid.length ∧
    ∃ f ∈ [(⟨"6001", []⟩ : GeoFeature)],
      (⟨⟨"06001", []⟩, []⟩ : MergedRow).left.geoid = zfill 5 f.geoid ∧
      (f.geoid.length ≤ 5 →
        (⟨⟨"06001", []⟩, []⟩ : MergedRow).left.geoid.length = 5) :=
  output_geoid_normalized_width [⟨"6001", []⟩] ⟨[], []⟩
    ⟨⟨"06001", []⟩, []⟩ (by decide)

/-- C2: the merge has left-join semantics on the normalized identifier: a
boundary record with no matching attribute record appears in the output with
the NaN row in all attribute-only columns (and every output row carrying its
identifier is NaN-padded), and an attribute record whose identifier matches
no boundary record contributes to no output row — no output row carries its
identifier. -/
theorem left_join_unmatched_semantics (fs : List GeoFeature) (t : CsvTable) :
    (∀ f ∈ fs, (∀ r ∈ t.rows, zfill 5 r.geoid ≠ zfill 5 f.geoid) →
      ((⟨⟨zfill 5 f.geoid, f.props⟩, naRow t.cols⟩ : MergedRow) ∈ pipeline fs t ∧
       ∀ m ∈ pipeline fs t, m.left.geoid = zfill 5 f.geoid →
         m.right = naRow t.cols)) ∧
    (∀ r ∈ t.rows, (∀ f ∈ fs, zfill 5 f.geoid ≠ zfill 5 r.geoid) →
      ∀ m ∈ pipeline fs t, m.left.geoid ≠ zfill 5 r.geoid) := by
  constructor
  · intro f hf hno
    have hnf : ({ f with geoid := zfill 5 f.geoid } : GeoFeature)
        ∈ normCounties fs :=
      List.mem_map.mpr ⟨f, hf, rfl⟩
    constructor
    · have hblock : mergeBlock ({ f with geoid := zfill 5 f.geoid }) (normCsv t)
          = [⟨{ f with geoid := zfill 5 f.geoid }, naRow (normCsv t).cols⟩] := by
        apply mergeBlock_of_no_match
        intro r' hr'
        obtain ⟨r, hr, hre⟩ := List.mem_map.mp hr'
        rw [← hre]
        exact hno r hr
      have hmem : (⟨⟨zfill 5 f.geoid, f.props⟩, naRow t.cols⟩ : MergedRow)
          ∈ mergeBlock ({ f with geoid := zfill 5 f.geoid }) (normCsv t) := by
        rw [hblock]
        exact List.mem_singleton.mpr rfl
      exact mergeBlock_subset_mergeLeft hnf hmem
    · intro m hm hgeo
      obtain ⟨-, hright⟩ :=
        mem_mergeLeft (show m ∈ mergeLeft (normCounties fs) (normCsv t) from hm)
      cases hright with
      | inl h => exact h
      | inr h =>
          obtain ⟨r', hr', hre, -⟩ := h
          obtain ⟨r, hr, hre2⟩ := List.mem_map.mp hr'
          exfalso
          apply hno r hr
          calc zfill 5 r.geoid = r'.geoid := by rw [← hre2]
            _ = m.left.geoid := hre
            _ = zfill 5 f.geoid := hgeo
  · intro r hr hno m hm heq
    obtain ⟨hmem, -⟩ :=
      mem_mergeLeft (show m ∈ mergeLeft (normCounties fs) (normCsv t) from hm)
    obtain ⟨f, hf, hfe⟩ := List.mem_map.mp hmem
    apply hno f hf
    calc zfill 5 f.geoid = m.left.geoid := by rw [← hfe]
      _ = zfill 5 r.geoid := heq

/-- Witness for C2: boundary `"72001"` with no CSV match appears NaN-padded;
the CSV-only key `"99999"` appears on no output row. -/
theorem left_join_unmatched_semantics_witness :
    ((⟨⟨"72001", []⟩, [("CASES", Cell.na)]⟩ : MergedRow)
        ∈ pipeline [⟨"72001", []⟩] ⟨["CASES"], [⟨"99999", []⟩]⟩) ∧
    (∀ m ∈ pipeline [⟨"72001", []⟩] ⟨["CASES"], [⟨"99999", []⟩]⟩,
        m.left.geoid ≠ zfill 5 ("99999")) :=
  ⟨((left_join_unmatched_semantics [⟨"72001", []⟩]
        ⟨["CASES"], [⟨"99999", []⟩]⟩).1
      ⟨"72001", []⟩ (by decide) (by decide)).1,
   (left_join_unmatched_semantics [⟨"72001", []⟩]
        ⟨["CASES"], [⟨"99999", []⟩]⟩).2
      ⟨"99999", []⟩ (by decide) (by decide)⟩

/-- C5: the reporter flags exactly the merged rows with at least one missing
cell in any column; the mainland and non-mainland groups are the subsets of
that flagged set failing resp. passing the `"72"` prefix test, they are
disjoint, and their sizes add up to the flagged set's size (an exhaustive
partition). -/
theorem missing_report_partition (merged : List MergedRow) (m : MergedRow) :
    (m ∈ missing_data merged ↔ m ∈ merged ∧ rowHasNA m = true) ∧
    (m ∈ missing_data merged ↔
      m ∈ missing_mainland merged ∨ m ∈ missing_non_mainland merged) ∧
    ¬ (m ∈ missing_mainland merged ∧ m ∈ missing_non_mainland merged) ∧
    (missing_mainland merged).length + (missing_non_mainland merged).length
      = (missing_data merged).length := by
  refine ⟨?_, ?_, ?_, ?_⟩
  · constructor
    · intro h
      exact ⟨(List.mem_filter.mp h).1, (List.mem_filter.mp h).2⟩
    · intro h
      exact List.mem_filter.mpr ⟨h.1, h.2⟩
  · constructor
    · intro h
      by_cases hp : startsWith72 m.left.geoid = true
      · exact Or.inr (List.mem_filter.mpr ⟨h, hp⟩)
      · refine Or.inl (List.mem_filter.mpr ⟨h, ?_⟩)
        simp only [Bool.not_eq_true] at hp
        simp [hp]
    · intro h
      cases h with
      | inl h => exact (List.mem_filter.mp h).1
      | inr h => exact (List.mem_filter.mp h).1
  · rintro ⟨h1, h2⟩
    have b1 := (List.mem_filter.mp h1).2
    have b2 := (List.mem_filter.mp h2).2
    rw [b2] at b1
    simp at b1
  · exact length_filter_partition (fun x => startsWith72 x.left.geoid)
      (missing_data merged)

/-- C9: the merged output lists the (normalized) boundary records in their
input iteration order, each contributing its contiguous block of rows (one
per CSV match, at least one); no other sorting or reordering happens. -/
theorem merged_output_order (fs : List GeoFeature) (t : CsvTable) :
    (pipeline fs t).map MergedRow.left
      = repeatEach (fun f => max 1 (matchRows (normCsv t) f.geoid).length)
          (normCounties fs) :=
  mergeLeft_map_left (normCounties fs) (normCsv t)

/-- C6: the missing-data report is purely observational — it only appends to
stdout, leaving the merged frame and the output file untouched — and the
writer serializes the complete joined collection, of which the flagged rows
are a sublist, to the output file. -/
theorem report_is_diagnostic_write_is_full (s : ScriptState)
    (fs : List GeoFeature) (t : CsvTable) :
    (reportStep s).merged = s.merged ∧
    (reportStep s).outFile = s.outFile ∧
    fileWritten (runScript (.ok fs) (.ok t) true) = some (pipeline fs t) ∧
    (missing_data (pipeline fs t)).Sublist (pipeline fs t) :=
  ⟨rfl, rfl, rfl, List.filter_sublist _⟩

/-- C7: no error is caught anywhere: a failed load aborts the run with that
very error, an unwritable output path aborts it, and an output file exists
exactly when every stage succeeded — in which case it holds the full join,
so no partial result is ever written. -/
theorem errors_propagate_no_partial_output :
    (∀ (e : Err) (lc : Except Err CsvTable) (w : Bool),
        runScript (.error e) lc w = .error e) ∧
    (∀ (fs : List GeoFeature) (e : Err) (w : Bool),
        runScript (.ok fs) (.error e) w = .error e) ∧
    (∀ (fs : List GeoFeature) (t : CsvTable),
        runScript (.ok fs) (.ok t) false = .error .ioError) ∧
    (∀ (lg : Except Err (List GeoFeature)) (lc : Except Err CsvTable)
        (w : Bool),
        fileWritten (runScript lg lc w)
          = match lg, lc, w with
            | .ok fs, .ok t, true => some (pipeline fs t)
            | _, _, _ => none) := by
  refine ⟨fun e lc w => rfl, fun fs e w => rfl, fun fs t => rfl, ?_⟩
  intro lg lc w
  cases lg <;> cases lc <;> cases w <;> rfl

/-- C8: the run is deterministic — its observable outcome (merged frame,
printed report, output file) is a function of the two input collections and
the writability of the output path alone, so identical inputs give
structurally identical output. -/
theorem run_deterministic (g1 g2 : Except Err (List GeoFeature))
    (c1 c2 : Except Err CsvTable) (w1 w2 : Bool)
    (hg : g1 = g2) (hc : c1 = c2) (hw : w1 = w2) :
    runScript g1 c1 w1 = runScript g2 c2 w2 := by
  rw [hg, hc, hw]

/-- Witness for C8 at one concrete input pair. -/
theorem run_deterministic_witness :
    runScript (.ok [⟨"6001", []⟩]) (.ok ⟨[], []⟩) true
      = runScript (.ok [⟨"6001", []⟩]) (.ok ⟨[], []⟩) true :=
  run_deterministic _ _ _ _ _ _ rfl rfl rfl

/-- C10: the `"72"` prefix test runs on the normalized identifier: an
identifier shorter than 5 characters is padded to start with `'0'` (stated
for sign-free identifiers, the only kind `GEOID` data contains), and a
boundary record with such a short original identifier can never surface in
the non-mainland group — no row of that group carries its normalized
identifier — even when the original string starts with `"72"`. -/
theorem prefix_test_on_normalized_geoid (s : String)
    (fs : List GeoFeature) (t : CsvTable) :
    (s.length < 5 → signLed s.data = false →
      (zfill 5 s).data.head? = some '0') ∧
    (∀ f ∈ fs, f.geoid.length < 5 →
      ∀ m ∈ missing_non_mainland (pipeline fs t),
        m.left.geoid ≠ zfill 5 f.geoid) := by
  constructor
  · intro hlen hsign
    show (zfillChars 5 s.data).head? = some '0'
    rw [zfillChars_eq_pad hsign]
    have hpos : 0 < 5 - s.data.length := by
      have hl : s.data.length < 5 := hlen
      omega
    obtain ⟨k, hk⟩ : ∃ k, 5 - s.data.length = k + 1 :=
      ⟨_, (Nat.succ_pred_eq_of_pos hpos).symm⟩
    rw [hk, List.replicate_succ, List.cons_append]
    rfl
  · intro f hf hlen m hm heq
    have hb : startsWith72 m.left.geoid = true := (List.mem_filter.mp hm).2
    rw [heq] at hb
    have hfalse : List.isPrefixOf ['7', '2'] (zfillChars 5 f.geoid.data)
        = false :=
      zfill_short_not72 (show f.geoid.data.length < 5 from hlen)
    have hb2 : List.isPrefixOf ['7', '2'] (zfillChars 5 f.geoid.data)
        = true := hb
    rw [hfalse] at hb2
    exact Bool.false_ne_true hb2

/-- Witness for C10: the 2-character identifier `"72"` normalizes to
`"00072"`, which starts with `'0'` and never reaches the non-mainland
group. -/
theorem prefix_test_on_normalized_geoid_witness :
    (zfill 5 ("72")).data.head? = some '0' ∧
    ∀ m ∈ missing_non_mainland (pipeline [⟨"72", []⟩] ⟨[], []⟩),
      m.left.geoid ≠ zfill 5 ("72") :=
  ⟨(prefix_test_on_normalized_geoid ("72") [] ⟨[], []⟩).1
      (by decide) (by decide),
   (prefix_test_on_normalized_geoid ("72") [⟨"72", []⟩] ⟨[], []⟩).2
      ⟨"72", []⟩ (by decide) (by decide)⟩
